import Mathlib

/-!
Verification development for the covid analyzer program
(`src/covid_analyzer.py`).  The two pandas data frames are embedded as
lists of records; numeric cells of a data frame are `Option ℚ`
(`none` models a missing value, i.e. a NaN cell).  Arithmetic performed
by the program on cell values is numpy float arithmetic, which never
raises on division by zero; it is modelled by `FloatVal` below, which
tracks the non-finite results (`nan`, `inf`, `negInf`) exactly and keeps
finite values as exact rationals.  Results that the program prints are
modelled as the returned value of the corresponding function; an
exception that escapes a method is modelled with `Except`.
-/

set_option autoImplicit false

namespace CovidAnalyzerModel

/-- A numpy double as the program observes it: a finite value (kept exact
as a rational; the claims under study never depend on rounding), NaN,
or a signed infinity. -/
inductive FloatVal where
  | num (q : ℚ)
  | nan
  | inf
  | negInf
  deriving DecidableEq, Repr

/-- Numpy float addition on `FloatVal` (`inf + negInf = nan`, NaN is
absorbing). -/
def floatAdd : FloatVal → FloatVal → FloatVal
  | .nan, _ => .nan
  | _, .nan => .nan
  | .inf, .negInf => .nan
  | .negInf, .inf => .nan
  | .inf, _ => .inf
  | _, .inf => .inf
  | .negInf, _ => .negInf
  | _, .negInf => .negInf
  | .num a, .num b => .num (a + b)

/-- Numpy float division on `FloatVal`: division by zero yields a signed
infinity (or NaN for `0/0`) instead of raising, NaN is absorbing, and a
finite value divided by an infinity collapses to zero. -/
def floatDiv : FloatVal → FloatVal → FloatVal
  | .nan, _ => .nan
  | _, .nan => .nan
  | .inf, .inf => .nan
  | .inf, .negInf => .nan
  | .negInf, .inf => .nan
  | .negInf, .negInf => .nan
  | .inf, .num b => if b < 0 then .negInf else .inf
  | .negInf, .num b => if b < 0 then .inf else .negInf
  | .num _, .inf => .num 0
  | .num _, .negInf => .num 0
  | .num a, .num b =>
      if b = 0 then (if a = 0 then .nan else if 0 < a then .inf else .negInf)
      else .num (a / b)

/-- Reading a numeric cell of a data frame: a missing cell reads as NaN. -/
def cellVal : Option ℚ → FloatVal
  | none => .nan
  | some q => .num q

/-- One row of the covid stats file (Case Table): columns `country`,
`total_cases`, `total_deaths`, `total_recovered`; numeric cells may be
missing (NaN). -/
structure CaseRecord where
  country : String
  total_cases : Option ℚ
  total_deaths : Option ℚ
  total_recovered : Option ℚ
  deriving DecidableEq, Repr

/-- One row of the safety measures file (Measure Table): columns
`country` and `measure`. -/
structure MeasureRecord where
  country : String
  measure : String
  deriving DecidableEq, Repr

/-- The analyzer's state after construction: the two data frames read by
`read_covid_stats` and `read_measures_stats`, held in
`self.__covid_stats` and `self.__safety_measures_states`. -/
structure CovidAnalyzer where
  covid_stats : List CaseRecord
  safety_measures_states : List MeasureRecord
  deriving DecidableEq, Repr

/-- `fetch_records('country', country_name, COVID_STATS_FLAG)`
(src line 125): the rows of the covid stats frame whose `country` column
equals the searched name, in original row order. -/
def fetch_covid_records (covid_stats : List CaseRecord) (country_name : String) :
    List CaseRecord :=
  covid_stats.filter (fun r => r.country == country_name)

/-- `fetch_records('measure', measure, MEASURES_STATS_FLAG)`
(src line 128): the rows of the measures frame whose `measure` column
equals the searched measure, in original row order. -/
def fetch_measure_records (mt : List MeasureRecord) (m : String) :
    List MeasureRecord :=
  mt.filter (fun r => r.measure == m)

/-- Observable outcome of `get_recovered_ratio` (src lines 106-112): the
function prints either the computed ratio line or the message
`There is no country with this name!!`. -/
inductive RecoveredRatioOutput where
  | printedRat (value : FloatVal)
  | noCountry
  deriving DecidableEq, Repr

/-- `get_recovered_ratio` (src lines 88-112): fetch the matching rows;
when the match is non-empty, print `total_recovered.iloc[0] /
total_cases.iloc[0]` (numpy division, performed unconditionally);
otherwise print the no-country message. -/
def get_recovered_ratio (a : CovidAnalyzer) (country_name : String) :
    RecoveredRatioOutput :=
  match fetch_covid_records a.covid_stats country_name with
  | [] => .noCountry
  | r :: _ =>
      .printedRat (floatDiv (cellVal r.total_recovered) (cellVal r.total_cases))

/-- Observable outcome of `find_average_death_rate` (src lines 154-158):
either the printed `Average Death Rate:` line, or the
`ValueError('there is no country taking this measure')` raised when no
row of the measures frame matches. -/
inductive AvgDeathRateOutput where
  | printedAvg (value : FloatVal)
  | noAdopters
  deriving DecidableEq, Repr

/-- One iteration of the loop of `find_average_death_rate`
(src lines 142-152) for country `i`: fetch the covid rows for `i`; when
a row exists and neither `total_deaths` nor `total_cases` is NaN, add
`total_cases.iloc[0] / total_deaths.iloc[0]` (numpy division, performed
even when deaths are zero) to the accumulator; otherwise leave it. -/
def deathRateStep (ct : List CaseRecord) (acc : FloatVal) (i : String) : FloatVal :=
  match fetch_covid_records ct i with
  | [] => acc
  | r :: _ =>
      match r.total_deaths, r.total_cases with
      | some d, some c => floatAdd acc (floatDiv (.num c) (.num d))
      | _, _ => acc

/-- `series_of_countries_with_measures` of `find_average_death_rate`
(src lines 139-140): the `country` column of the measure rows matching
`measure`, duplicates and all, in original row order. -/
def adopting_countries (mt : List MeasureRecord) (measure : String) : List String :=
  (fetch_measure_records mt measure).map MeasureRecord.country

/-- `deaths_rate_sum` accumulated by the loop of
`find_average_death_rate` (src lines 138-152). -/
def deaths_rate_sum (a : CovidAnalyzer) (measure : String) : FloatVal :=
  (adopting_countries a.safety_measures_states measure).foldl
    (deathRateStep a.covid_stats) (.num 0)

/-- `find_average_death_rate` (src lines 132-158): accumulate the
per-country rates, then divide the sum by the length of the matching
country series (all matching rows, not only the retained ones) when that
series is non-empty, and raise `ValueError` otherwise. -/
def find_average_death_rate (a : CovidAnalyzer) (measure : String) :
    AvgDeathRateOutput :=
  let countries := adopting_countries a.safety_measures_states measure
  if 0 < countries.length then
    .printedAvg (floatDiv (deaths_rate_sum a measure) (.num countries.length))
  else
    .noAdopters

/-- Number of occurrences of `x` in the list `l` (the count that
`Series.value_counts()` reports for key `x`). -/
def countOcc (l : List String) (x : String) : Nat :=
  (l.filter (fun y => y == x)).length

/-- The distinct values of `l` in order of first appearance (the key
order of the pandas hashtable underlying `value_counts`). -/
def distinctKeys (l : List String) : List String :=
  l.foldl (fun acc x => if x ∈ acc then acc else acc ++ [x]) []

/-- Stable insertion of `x` into a list sorted by descending `cnt`:
`x` is placed before the first element of strictly smaller count, so the
relative order of equal counts is preserved. -/
def insertByCountDesc (cnt : String → Nat) (x : String) : List String → List String
  | [] => [x]
  | y :: ys => if cnt y < cnt x then x :: y :: ys else y :: insertByCountDesc cnt x ys

/-- Stable sort by descending `cnt`. -/
def sortByCountDesc (cnt : String → Nat) : List String → List String
  | [] => []
  | x :: xs => insertByCountDesc cnt x (sortByCountDesc cnt xs)

/-- `list_of_mostly_adopted_measures` (src lines 174-176), i.e.
`value_counts()[0:5]` on the `measure` column: the distinct measures
sorted by descending occurrence count, truncated to five.  The relative
order of measures with equal counts is an internal of the pandas
library (an unstable sort over the hashtable's key order); it is
modelled here as a stable sort over first-appearance order, and no
theorem below relies on that tie order. -/
def list_of_mostly_adopted_measures (mt : List MeasureRecord) : List String :=
  (sortByCountDesc (countOcc (mt.map MeasureRecord.measure))
    (distinctKeys (mt.map MeasureRecord.measure))).take 5

/-- The exception that can escape `find_efficient_measures`: the plain
Python `0 / 0` on src line 197 when both sums are still the `int` value
`0`. -/
inductive PyExn where
  | zeroDivisionError
  deriving DecidableEq, Repr

/-- One iteration of the inner loop of `find_efficient_measures`
(src lines 187-194) for one adopting country.  The accumulator is
`(sum_of_recovered_cases, sum_of_total_cases, k)` where `k` counts how
many `+=` have executed: the sums start as Python `int 0` and become
numpy scalars exactly when `k > 0`, which decides whether the final
division can raise `ZeroDivisionError`. -/
def effStep (ct : List CaseRecord) (acc : ℚ × ℚ × ℕ) (country : String) :
    ℚ × ℚ × ℕ :=
  match fetch_covid_records ct country with
  | [] => acc
  | r :: _ =>
      match r.total_recovered, r.total_cases with
      | some tr, some tc => (acc.1 + tr, acc.2.1 + tc, acc.2.2 + 1)
      | _, _ => acc

/-- The sums accumulated by the inner loop of `find_efficient_measures`
(src lines 182-194) for one measure over its adopting countries. -/
def measure_sums (ct : List CaseRecord) (mt : List MeasureRecord) (m : String) :
    ℚ × ℚ × ℕ :=
  ((fetch_measure_records mt m).map MeasureRecord.country).foldl (effStep ct)
    (0, 0, 0)

/-- The outer loop of `find_efficient_measures` (src lines 181-197) over
the selected measures.  When no `+=` executed for a measure, the
division on line 197 is Python `int 0 / int 0` and raises
`ZeroDivisionError`, aborting the whole call (the entries of the other
measures are lost); otherwise the sums are numpy scalars, the division
never raises, and `measure -> sum_of_recovered_cases /
sum_of_total_cases` is recorded in insertion order. -/
def eff_loop (ct : List CaseRecord) (mt : List MeasureRecord) :
    List String → Except PyExn (List (String × FloatVal))
  | [] => .ok []
  | m :: rest =>
      let s := measure_sums ct mt m
      if s.2.2 = 0 then .error .zeroDivisionError
      else Except.map (fun tl => (m, floatDiv (.num s.1) (.num s.2.1)) :: tl)
        (eff_loop ct mt rest)

/-- `find_efficient_measures` (src lines 161-198): select the five most
adopted measures, then map each to its pooled
`sum_of_recovered_cases / sum_of_total_cases`; a `ZeroDivisionError`
raised for any selected measure escapes the method. -/
def find_efficient_measures (a : CovidAnalyzer) :
    Except PyExn (List (String × FloatVal)) :=
  eff_loop a.covid_stats a.safety_measures_states
    (list_of_mostly_adopted_measures a.safety_measures_states)

/-- Predicate for a country that the loop of `find_average_death_rate`
skips: no covid row matches it, or its first matching row has a missing
(NaN) `total_deaths` or `total_cases`. -/
def countrySkipped (ct : List CaseRecord) (c : String) : Bool :=
  match fetch_covid_records ct c with
  | [] => true
  | r :: _ => r.total_deaths.isNone || r.total_cases.isNone

/-- State-passing form of `get_recovered_ratio`: the method body
(src lines 88-112) contains no assignment to `self.__covid_stats` or
`self.__safety_measures_states`, so the analyzer state threads through
unchanged. -/
def get_recovered_ratio_st (a : CovidAnalyzer) (country_name : String) :
    CovidAnalyzer × RecoveredRatioOutput :=
  (a, get_recovered_ratio a country_name)

/-- State-passing form of `find_average_death_rate` (src lines 132-158):
no assignment to the analyzer's fields occurs in the method body. -/
def find_average_death_rate_st (a : CovidAnalyzer) (measure : String) :
    CovidAnalyzer × AvgDeathRateOutput :=
  (a, find_average_death_rate a measure)

/-- State-passing form of `find_efficient_measures` (src lines 161-198):
no assignment to the analyzer's fields occurs in the method body. -/
def find_efficient_measures_st (a : CovidAnalyzer) :
    CovidAnalyzer × Except PyExn (List (String × FloatVal)) :=
  (a, find_efficient_measures a)

instance {ε : Type _} {α : Type _} [DecidableEq ε] [DecidableEq α] :
    DecidableEq (Except ε α)
  | .error e, .error f => decidable_of_iff (e = f) (by simp)
  | .ok x, .ok y => decidable_of_iff (x = y) (by simp)
  | .error _, .ok _ => .isFalse (fun h => Except.noConfusion h)
  | .ok _, .error _ => .isFalse (fun h => Except.noConfusion h)

/-- Division of two finite values with a nonzero divisor is the plain
rational division. -/
theorem floatDiv_num_of_ne (x y : ℚ) (hy : y ≠ 0) :
    floatDiv (.num x) (.num y) = .num (x / y) := by
  simp [floatDiv, hy]

/-- Unfolding of `find_average_death_rate` when the matching country
series is non-empty. -/
theorem find_average_death_rate_pos (a : CovidAnalyzer) (m : String)
    (h : 0 < (adopting_countries a.safety_measures_states m).length) :
    find_average_death_rate a m
      = .printedAvg (floatDiv (deaths_rate_sum a m)
          (.num (adopting_countries a.safety_measures_states m).length)) := by
  unfold find_average_death_rate
  rw [if_pos h]

/-- A country that `countrySkipped` classifies as skipped contributes
nothing to the accumulator of the `find_average_death_rate` loop. -/
theorem deathRateStep_skipped (ct : List CaseRecord) (c : String)
    (h : countrySkipped ct c = true) (acc : FloatVal) :
    deathRateStep ct acc c = acc := by
  unfold countrySkipped at h
  rcases hf : fetch_covid_records ct c with _ | ⟨r, l⟩
  · simp [deathRateStep, hf]
  · rw [hf] at h
    simp only [Option.isNone_iff_eq_none, Bool.or_eq_true] at h
    rcases h with hd | hc
    · simp [deathRateStep, hf, hd]
    · rcases hd : r.total_deaths with _ | d
      · simp [deathRateStep, hf, hd]
      · simp [deathRateStep, hf, hd, hc]

/-- C1: on the Case Table `{US,100,10,50},{FR,200,20,100}` and Measure
Table `{US,lockdown},{FR,lockdown}`, `find_average_death_rate "lockdown"`
computes each adopting country's rate as `total_cases / total_deaths`
(cases-per-death orientation: 100/10 and 200/20) and reports their mean,
`10`.  The deaths-per-case orientation would instead give `0.075`, so the
value `10` pins the orientation. -/
theorem average_death_rate_lockdown_example :
    find_average_death_rate
      ⟨[⟨"US", some 100, some 10, some 50⟩, ⟨"FR", some 200, some 20, some 100⟩],
       [⟨"US", "lockdown"⟩, ⟨"FR", "lockdown"⟩]⟩ "lockdown"
      = .printedAvg (.num 10) := by
  simp [find_average_death_rate, adopting_countries, fetch_measure_records,
    deaths_rate_sum, deathRateStep, fetch_covid_records, cellVal, List.filter]
  norm_num [floatAdd, floatDiv]

/-- C2 counterexample: for the Case Table row `{Zed, cases 0, deaths 1,
recovered 5}`, `get_recovered_ratio "Zed"` performs the division
`5 / 0` anyway and prints the ordinary ratio line with the non-finite
value `inf`; no distinct `Undefined` outcome is produced (the output is
the same `printedRat` constructor used for every computable ratio). -/
theorem recovered_zero_cases_counterexample :
    get_recovered_ratio ⟨[⟨"Zed", some 0, some 1, some 5⟩], []⟩ "Zed"
      = .printedRat .inf := by decide

/-- C2 (amended): for every country whose Case Table row has
`total_cases` equal to zero or missing, `get_recovered_ratio` still
performs the division and prints a ratio whose value is non-finite
(`inf`, `negInf`, or `nan`); it does not raise a division fault, but it
does not signal a distinct `Undefined` outcome either. -/
theorem recovered_zero_or_missing_cases_nonfinite
    (a : CovidAnalyzer) (c : String) (r : CaseRecord) (l : List CaseRecord)
    (h : fetch_covid_records a.covid_stats c = r :: l)
    (hc : r.total_cases = some 0 ∨ r.total_cases = none) :
    ∃ v, get_recovered_ratio a c = .printedRat v ∧
      (v = .inf ∨ v = .negInf ∨ v = .nan) := by
  refine ⟨floatDiv (cellVal r.total_recovered) (cellVal r.total_cases), ?_, ?_⟩
  · unfold get_recovered_ratio
    rw [h]
  · rcases hc with hc | hc <;> rw [hc]
    · cases hr : r.total_recovered with
      | none => simp [cellVal, floatDiv]
      | some q =>
          simp only [cellVal, floatDiv]
          split_ifs <;> tauto
    · cases hr : r.total_recovered <;> simp [cellVal, floatDiv]

/-- C2 witness: instantiation of the amended theorem at the table of the
counterexample. -/
theorem recovered_zero_or_missing_cases_nonfinite_witness :
    ∃ v, get_recovered_ratio ⟨[⟨"Zed", some 0, some 1, some 5⟩], []⟩ "Zed"
        = .printedRat v ∧ (v = .inf ∨ v = .negInf ∨ v = .nan) :=
  recovered_zero_or_missing_cases_nonfinite
    ⟨[⟨"Zed", some 0, some 1, some 5⟩], []⟩ "Zed"
    ⟨"Zed", some 0, some 1, some 5⟩ [] (by decide) (Or.inl rfl)

/-- C3 counterexample: for the Case Table row `{Em, cases 100, deaths 1,
recovered missing}`, `get_recovered_ratio "Em"` prints the value NaN
(the missing cell propagates through the division), not the value `0`
that the claim requires. -/
theorem recovered_missing_counterexample :
    get_recovered_ratio ⟨[⟨"Em", some 100, some 1, none⟩], []⟩ "Em"
      = .printedRat .nan ∧
    RecoveredRatioOutput.printedRat FloatVal.nan ≠ .printedRat (.num 0) := by
  decide

/-- C3 (amended): for a country present in the Case Table,
`get_recovered_ratio` prints `total_recovered / total_cases`; when
`total_recovered` is missing the printed value is NaN (the missing value
propagates), not `0`. -/
theorem recovered_ratio_formula
    (a : CovidAnalyzer) (c : String) (r : CaseRecord) (l : List CaseRecord)
    (h : fetch_covid_records a.covid_stats c = r :: l) :
    (r.total_recovered = none → get_recovered_ratio a c = .printedRat .nan) ∧
    (∀ p q : ℚ, r.total_recovered = some p → r.total_cases = some q → q ≠ 0 →
      get_recovered_ratio a c = .printedRat (.num (p / q))) := by
  have hg : get_recovered_ratio a c
      = .printedRat (floatDiv (cellVal r.total_recovered) (cellVal r.total_cases)) := by
    unfold get_recovered_ratio
    rw [h]
  constructor
  · intro hr
    rw [hg, hr]
    cases hc : r.total_cases <;> simp [cellVal, floatDiv]
  · intro p q hp hq hne
    rw [hg, hp, hq]
    simp [cellVal, floatDiv, hne]

/-- C3 witness: instantiation of the amended theorem, once at a row with
a missing `total_recovered` and once at a fully populated row. -/
theorem recovered_ratio_formula_witness :
    get_recovered_ratio ⟨[⟨"Em", some 100, some 1, none⟩], []⟩ "Em"
        = .printedRat .nan ∧
    get_recovered_ratio ⟨[⟨"Gh", some 100, some 1, some 50⟩], []⟩ "Gh"
        = .printedRat (.num (50 / 100)) :=
  ⟨(recovered_ratio_formula ⟨[⟨"Em", some 100, some 1, none⟩], []⟩ "Em"
      ⟨"Em", some 100, some 1, none⟩ [] (by decide)).1 rfl,
   (recovered_ratio_formula ⟨[⟨"Gh", some 100, some 1, some 50⟩], []⟩ "Gh"
      ⟨"Gh", some 100, some 1, some 50⟩ [] (by decide)).2 50 100 rfl rfl
      (by norm_num)⟩

/-- C8: for every country name with no matching row in the Case Table,
`get_recovered_ratio` produces the distinct `noCountry` outcome (the
printed no-country report), which is a different constructor from every
ratio outcome. -/
theorem recovered_ratio_missing_country
    (a : CovidAnalyzer) (c : String)
    (h : fetch_covid_records a.covid_stats c = []) :
    get_recovered_ratio a c = .noCountry ∧
      ∀ v, RecoveredRatioOutput.noCountry ≠ .printedRat v := by
  constructor
  · unfold get_recovered_ratio
    rw [h]
  · intro v h'
    exact RecoveredRatioOutput.noConfusion h'

/-- C8 witness: `Noland` is absent from a one-row Case Table. -/
theorem recovered_ratio_missing_country_witness :
    get_recovered_ratio ⟨[⟨"US", some 100, some 10, some 50⟩], []⟩ "Noland"
        = .noCountry ∧
      ∀ v, RecoveredRatioOutput.noCountry ≠ .printedRat v :=
  recovered_ratio_missing_country
    ⟨[⟨"US", some 100, some 10, some 50⟩], []⟩ "Noland" (by decide)

/-- C9: each public operation, on any input, returns the analyzer state
unchanged: the state component of the state-passing form of every method
equals the state passed in (the method bodies contain no assignment to
the analyzer's fields). -/
theorem operations_preserve_analyzer_state (a : CovidAnalyzer) (c m : String) :
    (get_recovered_ratio_st a c).1 = a ∧
      (find_average_death_rate_st a m).1 = a ∧
      (find_efficient_measures_st a).1 = a :=
  ⟨rfl, rfl, rfl⟩

/-- C4 counterexample: for the Case Table row `{A, cases 100, deaths 0,
recovered 1}` and Measure Table row `{A, m}`,
`find_average_death_rate "m"` does not skip country `A`: the division
`100 / 0` is performed, contributes `inf` to the sum, and the reported
average is `inf`.  Had `A` been skipped as the claim states, the result
would have been the average `0` (empty sum over divisor 1). -/
theorem zero_deaths_not_skipped_counterexample :
    find_average_death_rate
        ⟨[⟨"A", some 100, some 0, some 1⟩], [⟨"A", "m"⟩]⟩ "m"
      = .printedAvg .inf ∧
    AvgDeathRateOutput.printedAvg FloatVal.inf ≠ .printedAvg (.num 0) := by
  constructor
  · simp [find_average_death_rate, adopting_countries, fetch_measure_records,
      deaths_rate_sum, deathRateStep, fetch_covid_records, cellVal, List.filter]
    norm_num [floatAdd, floatDiv]
  · simp

/-- C4 (amended): an adopting country whose `total_deaths` equals zero
(with both cells present) is not skipped by the loop of
`find_average_death_rate`: its rate `total_cases / 0` is computed as a
non-finite value (`inf`, `negInf`, or NaN) and added to the accumulated
sum; no division fault is raised.  Only rows with a missing (NaN)
`total_cases` or `total_deaths`, or absent from the Case Table, are
skipped. -/
theorem zero_deaths_contributes_nonfinite
    (ct : List CaseRecord) (i : String) (acc : FloatVal)
    (r : CaseRecord) (l : List CaseRecord) (q : ℚ)
    (h : fetch_covid_records ct i = r :: l)
    (hd : r.total_deaths = some 0) (hc : r.total_cases = some q) :
    ∃ v, deathRateStep ct acc i = floatAdd acc v ∧
      (v = .inf ∨ v = .negInf ∨ v = .nan) := by
  refine ⟨floatDiv (.num q) (.num 0), ?_, ?_⟩
  · simp [deathRateStep, h, hd, hc]
  · simp only [floatDiv]
    split_ifs <;> simp_all

/-- C4 witness: instantiation of the amended theorem at the table of the
counterexample. -/
theorem zero_deaths_contributes_nonfinite_witness :
    ∃ v, deathRateStep [⟨"A", some 100, some 0, some 1⟩] (.num 0) "A"
        = floatAdd (.num 0) v ∧ (v = .inf ∨ v = .negInf ∨ v = .nan) :=
  zero_deaths_contributes_nonfinite [⟨"A", some 100, some 0, some 1⟩] "A"
    (.num 0) ⟨"A", some 100, some 0, some 1⟩ [] 100 (by decide) rfl rfl

/-- C5 counterexample: with Case Table `{Y, cases 10, deaths 1,
recovered 5}` and Measure Table `{X,mm},{X,mm},{Y,nn}`, the measure `mm`
is selected first (two adopting rows) but both its adopting rows name
country `X`, which has no Case Table row, so nothing is retained and the
pooled division is the plain Python `int 0 / int 0`:
`find_efficient_measures` raises `ZeroDivisionError` and the whole
operation aborts, losing the computable ratio `5/10` of measure `nn`
instead of mapping `mm` to a per-key marker. -/
theorem pooled_zero_aborts_counterexample :
    find_efficient_measures
        ⟨[⟨"Y", some 10, some 1, some 5⟩],
         [⟨"X", "mm"⟩, ⟨"X", "mm"⟩, ⟨"Y", "nn"⟩]⟩
      = .error .zeroDivisionError := by decide

/-- C5 (amended): in `find_efficient_measures`, when the pooled
`total_cases` over a selected measure's retained adopters is zero, the
outcome splits on whether any adopter was retained: if at least one
`+=` executed, the sums are numpy scalars, the measure is mapped to the
non-finite value `sum_recovered / 0` (NaN or an infinity), and the
remaining measures are still processed; if no adopter was retained, the
division is Python `int 0 / int 0`, which raises `ZeroDivisionError` and
aborts the whole operation. -/
theorem pooled_zero_cases_per_measure
    (ct : List CaseRecord) (mt : List MeasureRecord) (m : String)
    (rest : List String) :
    ((measure_sums ct mt m).2.2 = 0 →
      eff_loop ct mt (m :: rest) = .error .zeroDivisionError) ∧
    ((measure_sums ct mt m).2.2 ≠ 0 → (measure_sums ct mt m).2.1 = 0 →
      ∃ v, eff_loop ct mt (m :: rest)
          = Except.map (fun tl => (m, v) :: tl) (eff_loop ct mt rest) ∧
        (v = .nan ∨ v = .inf ∨ v = .negInf)) := by
  constructor
  · intro h0
    simp only [eff_loop]
    rw [if_pos h0]
  · intro hn hz
    refine ⟨floatDiv (.num (measure_sums ct mt m).1)
      (.num (measure_sums ct mt m).2.1), ?_, ?_⟩
    · simp only [eff_loop]
      rw [if_neg hn]
    · rw [hz]
      simp only [floatDiv]
      split_ifs <;> simp_all

/-- C5 witness: instantiation of the amended theorem, once at a measure
with no retained adopter (abort) and once at a measure with one retained
adopter whose `total_cases` is zero (per-key non-finite entry). -/
theorem pooled_zero_cases_per_measure_witness :
    eff_loop [] [⟨"X", "mm"⟩] ["mm"] = .error .zeroDivisionError ∧
    ∃ v, eff_loop [⟨"Y", some 0, some 1, some 3⟩] [⟨"Y", "nn"⟩] ["nn"]
        = Except.map (fun tl => ("nn", v) :: tl)
            (eff_loop [⟨"Y", some 0, some 1, some 3⟩] [⟨"Y", "nn"⟩] []) ∧
      (v = .nan ∨ v = .inf ∨ v = .negInf) :=
  ⟨(pooled_zero_cases_per_measure [] [⟨"X", "mm"⟩] "mm" []).1 (by decide),
   (pooled_zero_cases_per_measure [⟨"Y", some 0, some 1, some 3⟩]
      [⟨"Y", "nn"⟩] "nn" []).2 (by decide)
      (by simp [measure_sums, fetch_measure_records, effStep,
            fetch_covid_records, List.filter])⟩

/-- C7 counterexample: with an empty Case Table and Measure Table
`{A, m}`, country `A` adopted `m` but is skipped; yet
`find_average_death_rate "m"` prints the numeric average `0` (sum `0`
divided by the one adopting row) instead of signalling an undefined
result. -/
theorem all_skipped_counterexample :
    find_average_death_rate ⟨[], [⟨"A", "m"⟩]⟩ "m" = .printedAvg (.num 0) := by
  simp [find_average_death_rate, adopting_countries, fetch_measure_records,
    deaths_rate_sum, deathRateStep, fetch_covid_records, List.filter]
  norm_num [floatAdd, floatDiv]

/-- C7 (amended): when at least one country adopted the measure but every
adopting country is skipped (absent from the Case Table or with a
missing `total_cases`/`total_deaths`), `find_average_death_rate` does
not signal an undefined result: it reports the numeric average `0`
(the untouched sum `0` divided by the count of adopting rows).  The only
non-numeric outcome is `noAdopters`, raised when no row matches the
measure at all. -/
theorem all_skipped_yields_zero_average
    (a : CovidAnalyzer) (m : String)
    (hne : adopting_countries a.safety_measures_states m ≠ [])
    (hsk : ∀ c ∈ adopting_countries a.safety_measures_states m,
      countrySkipped a.covid_stats c = true) :
    find_average_death_rate a m = .printedAvg (.num 0) := by
  have hfold : ∀ (L : List String),
      (∀ c ∈ L, countrySkipped a.covid_stats c = true) →
      ∀ acc, L.foldl (deathRateStep a.covid_stats) acc = acc := by
    intro L
    induction L with
    | nil => intro _ acc; rfl
    | cons x xs ih =>
        intro hL acc
        simp only [List.foldl]
        rw [deathRateStep_skipped _ _ (hL x (by simp)) acc]
        exact ih (fun c hc => hL c (by simp [hc])) acc
  have hsum : deaths_rate_sum a m = .num 0 := by
    unfold deaths_rate_sum
    exact hfold _ hsk (.num 0)
  have hlen : 0 < (adopting_countries a.safety_measures_states m).length :=
    List.length_pos.mpr hne
  have hlen0 : ((adopting_countries a.safety_measures_states m).length : ℚ) ≠ 0 :=
    Nat.cast_ne_zero.mpr hlen.ne'
  unfold find_average_death_rate
  rw [if_pos hlen, hsum]
  simp [floatDiv, hlen0]

/-- C7 witness: instantiation of the amended theorem at the table of the
counterexample. -/
theorem all_skipped_yields_zero_average_witness :
    find_average_death_rate ⟨[], [⟨"A", "m"⟩]⟩ "m" = .printedAvg (.num 0) :=
  all_skipped_yields_zero_average ⟨[], [⟨"A", "m"⟩]⟩ "m" (by decide) (by decide)

/-- C10: in `find_average_death_rate`, the divisor of the average is the
number of all Measure Table rows matching the measure, not only the
retained ones: appending one more adopting row for a skipped country
(here, one absent from the Case Table or with missing cells) leaves the
accumulated sum unchanged, increments the divisor, and hence strictly
lowers every positive reported average. -/
theorem skipped_adopter_lowers_average
    (a : CovidAnalyzer) (m c : String) (q : ℚ)
    (hsk : countrySkipped a.covid_stats c = true)
    (hq : find_average_death_rate a m = .printedAvg (.num q))
    (hpos : 0 < q) :
    ∃ q', find_average_death_rate
        ⟨a.covid_stats, a.safety_measures_states ++ [⟨c, m⟩]⟩ m
        = .printedAvg (.num q') ∧ q' < q := by
  by_cases hL : 0 < (adopting_countries a.safety_measures_states m).length
  · rw [find_average_death_rate_pos a m hL] at hq
    simp only [AvgDeathRateOutput.printedAvg.injEq] at hq
    have hn0 : ((adopting_countries a.safety_measures_states m).length : ℚ) ≠ 0 :=
      Nat.cast_ne_zero.mpr hL.ne'
    rcases hS : deaths_rate_sum a m with S0 | _ | _ | _
    · -- finite sum
      rw [hS, floatDiv_num_of_ne _ _ hn0] at hq
      simp only [FloatVal.num.injEq] at hq
      have hadopt : adopting_countries (a.safety_measures_states ++ [⟨c, m⟩]) m
          = adopting_countries a.safety_measures_states m ++ [c] := by
        unfold adopting_countries fetch_measure_records
        rw [List.filter_append]
        simp
      have hsum' : deaths_rate_sum
          ⟨a.covid_stats, a.safety_measures_states ++ [⟨c, m⟩]⟩ m = .num S0 := by
        unfold deaths_rate_sum at hS ⊢
        simp only [hadopt, List.foldl_append]
        rw [hS]
        simp only [List.foldl]
        rw [deathRateStep_skipped _ _ hsk]
      have hnpos : (0 : ℚ)
          < ((adopting_countries a.safety_measures_states m).length : ℚ) := by
        exact_mod_cast hL
      have hS0pos : 0 < S0 := by
        have hS0 : S0
            = q * ((adopting_countries a.safety_measures_states m).length : ℚ) :=
          (div_eq_iff hn0).mp hq
        rw [hS0]
        positivity
      have hlen' : 0 < (adopting_countries
          ((⟨a.covid_stats, a.safety_measures_states ++ [⟨c, m⟩]⟩ :
            CovidAnalyzer)).safety_measures_states m).length := by
        dsimp only
        rw [hadopt]
        rw [List.length_append]
        omega
      have hres := find_average_death_rate_pos
        ⟨a.covid_stats, a.safety_measures_states ++ [⟨c, m⟩]⟩ m hlen'
      rw [hsum'] at hres
      dsimp only at hres
      rw [hadopt, List.length_append] at hres
      have hcast : (((adopting_countries a.safety_measures_states m).length
          + [c].length : ℕ) : ℚ)
          = ((adopting_countries a.safety_measures_states m).length : ℚ) + 1 := by
        push_cast
        simp
      have hne1 : (((adopting_countries a.safety_measures_states m).length
          + [c].length : ℕ) : ℚ) ≠ 0 := by
        rw [hcast]
        positivity
      rw [floatDiv_num_of_ne _ _ hne1, hcast] at hres
      refine ⟨S0 / (((adopting_countries a.safety_measures_states m).length : ℚ) + 1),
        hres, ?_⟩
      rw [← hq]
      exact div_lt_div_of_pos_left hS0pos hnpos (by linarith)
    · rw [hS] at hq
      exact FloatVal.noConfusion hq
    · rw [hS] at hq
      have : floatDiv .inf
          (.num ((adopting_countries a.safety_measures_states m).length : ℚ))
          = if ((adopting_countries a.safety_measures_states m).length : ℚ) < 0
            then .negInf else .inf := rfl
      rw [this] at hq
      split_ifs at hq
    · rw [hS] at hq
      have : floatDiv .negInf
          (.num ((adopting_countries a.safety_measures_states m).length : ℚ))
          = if ((adopting_countries a.safety_measures_states m).length : ℚ) < 0
            then .inf else .negInf := rfl
      rw [this] at hq
      split_ifs at hq
  · unfold find_average_death_rate at hq
    rw [if_neg hL] at hq
    cases hq

/-- C10 witness: a one-country table where the average over `{US}` is
`10`; appending the skipped adopter `GH` lowers it (to `5`). -/
theorem skipped_adopter_lowers_average_witness :
    ∃ q', find_average_death_rate
        ⟨[⟨"US", some 100, some 10, some 50⟩], [⟨"US", "m"⟩] ++ [⟨"GH", "m"⟩]⟩ "m"
        = .printedAvg (.num q') ∧ q' < 10 :=
  skipped_adopter_lowers_average
    ⟨[⟨"US", some 100, some 10, some 50⟩], [⟨"US", "m"⟩]⟩ "m" "GH" 10
    (by decide)
    (by simp [find_average_death_rate, adopting_countries, fetch_measure_records,
          deaths_rate_sum, deathRateStep, fetch_covid_records, cellVal, List.filter]
        norm_num [floatAdd, floatDiv])
    (by norm_num)

end CovidAnalyzerModel
